import Mathlib

/-!
Verification of the AmbrosusNode core against its specification.

The repository's `src/services/data_model_engine.js` is embedded directly.
The collaborating services (`BundleBuilder`, `AccountAccessDefinitions`,
`EntityBuilder`, the identity manager and the repositories) have only their
test suites in the repository, so those parts are modelled from the
specification text; each such definition carries a doc comment saying so.

JSON-like runtime values are embedded as the inductive type `Value`;
JavaScript objects become association lists of string keys.
-/

inductive Value where
  | null : Value
  | nat : Nat → Value
  | str : String → Value
  | arr : List Value → Value
  | obj : List (String × Value) → Value
deriving Repr

mutual

def Value.decEq : (a b : Value) → Decidable (a = b)
  | .null, .null => isTrue rfl
  | .nat a, .nat b =>
    match Nat.decEq a b with
    | isTrue h => isTrue (by rw [h])
    | isFalse h => isFalse (by intro hc; cases hc; exact h rfl)
  | .str a, .str b =>
    match String.decEq a b with
    | isTrue h => isTrue (by rw [h])
    | isFalse h => isFalse (by intro hc; cases hc; exact h rfl)
  | .arr xs, .arr ys =>
    match Value.decEqList xs ys with
    | isTrue h => isTrue (by rw [h])
    | isFalse h => isFalse (by intro hc; cases hc; exact h rfl)
  | .obj xs, .obj ys =>
    match Value.decEqObj xs ys with
    | isTrue h => isTrue (by rw [h])
    | isFalse h => isFalse (by intro hc; cases hc; exact h rfl)
  | .null, .nat _ => isFalse (by intro h; cases h)
  | .null, .str _ => isFalse (by intro h; cases h)
  | .null, .arr _ => isFalse (by intro h; cases h)
  | .null, .obj _ => isFalse (by intro h; cases h)
  | .nat _, .null => isFalse (by intro h; cases h)
  | .nat _, .str _ => isFalse (by intro h; cases h)
  | .nat _, .arr _ => isFalse (by intro h; cases h)
  | .nat _, .obj _ => isFalse (by intro h; cases h)
  | .str _, .null => isFalse (by intro h; cases h)
  | .str _, .nat _ => isFalse (by intro h; cases h)
  | .str _, .arr _ => isFalse (by intro h; cases h)
  | .str _, .obj _ => isFalse (by intro h; cases h)
  | .arr _, .null => isFalse (by intro h; cases h)
  | .arr _, .nat _ => isFalse (by intro h; cases h)
  | .arr _, .str _ => isFalse (by intro h; cases h)
  | .arr _, .obj _ => isFalse (by intro h; cases h)
  | .obj _, .null => isFalse (by intro h; cases h)
  | .obj _, .nat _ => isFalse (by intro h; cases h)
  | .obj _, .str _ => isFalse (by intro h; cases h)
  | .obj _, .arr _ => isFalse (by intro h; cases h)

def Value.decEqList : (xs ys : List Value) → Decidable (xs = ys)
  | [], [] => isTrue rfl
  | x :: xs, y :: ys =>
    match Value.decEq x y, Value.decEqList xs ys with
    | isTrue h1, isTrue h2 => isTrue (by rw [h1, h2])
    | isFalse h1, _ => isFalse (by intro hc; cases hc; exact h1 rfl)
    | _, isFalse h2 => isFalse (by intro hc; cases hc; exact h2 rfl)
  | [], _ :: _ => isFalse (by intro h; cases h)
  | _ :: _, [] => isFalse (by intro h; cases h)

def Value.decEqObj : (xs ys : List (String × Value)) → Decidable (xs = ys)
  | [], [] => isTrue rfl
  | (k1, v1) :: xs, (k2, v2) :: ys =>
    match String.decEq k1 k2, Value.decEq v1 v2, Value.decEqObj xs ys with
    | isTrue h0, isTrue h1, isTrue h2 => isTrue (by rw [h0, h1, h2])
    | isFalse h0, _, _ => isFalse (by intro hc; cases hc; exact h0 rfl)
    | _, isFalse h1, _ => isFalse (by intro hc; cases hc; exact h1 rfl)
    | _, _, isFalse h2 => isFalse (by intro hc; cases hc; exact h2 rfl)
  | [], _ :: _ => isFalse (by intro h; cases h)
  | _ :: _, [] => isFalse (by intro h; cases h)

end

instance : DecidableEq Value := Value.decEq

/-- Field lookup in an association list (first occurrence wins, as JS keys are unique). -/
def lookupField : List (String × Value) → String → Option Value
  | [], _ => none
  | (k', v) :: rest, k => if k' = k then some v else lookupField rest k

/-- Object field access; `none` models a JS `undefined` property access. -/
def getField : Value → String → Option Value
  | .obj fields, k => lookupField fields k
  | _, _ => none

/-- Object field access defaulting to `null` for missing fields. -/
def getF (v : Value) (k : String) : Value :=
  (getField v k).getD .null

def putField : List (String × Value) → String → Value → List (String × Value)
  | [], k, v => [(k, v)]
  | (k', v') :: rest, k, v =>
    if k' = k then (k, v) :: rest else (k', v') :: putField rest k v

/-- Functional update of an object field, modelling a JS object spread override. -/
def objPut : Value → String → Value → Value
  | .obj fields, k, v => .obj (putField fields k v)
  | _, k, v => .obj [(k, v)]

def removeField : List (String × Value) → String → List (String × Value)
  | [], _ => []
  | (k', v') :: rest, k =>
    if k' = k then removeField rest k else (k', v') :: removeField rest k

/-- Deletion of an object field. -/
def objRemove : Value → String → Value
  | .obj fields, k => .obj (removeField fields k)
  | v, _ => v

/-- The error taxonomy of `src/errors/errors` as observed by callers:
only the error kind is distinguishable. -/
inductive Err where
  | validation
  | permission
  | notFound
  | invalidParameters
  | other
deriving DecidableEq, Repr

/-- Modelled from the spec: Identity Provider `calculateHash(value) → digest`
(§6). The external keccak hash is replaced by an injective digest constructor,
the idealisation of a collision-free content hash. -/
def calculateHash (v : Value) : Value := .obj [("hashOf", v)]

/-- Modelled from the spec: Identity Provider `checkHashMatches(digest, value)`
(§6), reproducible equality of the digest with the value's hash. -/
def checkHashMatches (digest v : Value) : Bool := digest == calculateHash v

/-- Modelled from the spec: Identity Provider `addressFromSecret(secret)` (§6),
idealised as an injective address derivation. -/
def addressFromSecret (secret : Value) : Value := .obj [("addressOf", secret)]

/-- Modelled from the spec: Identity Provider `sign(secret, payload)` (§6),
idealised as an unforgeable signature that determines secret and payload. -/
def sign (secret payload : Value) : Value :=
  .obj [("sigSecret", secret), ("sigPayload", payload)]

/-- Modelled from the spec: Identity Provider `validateSignature(address,
signature, payload)` (§6): accepts exactly the signatures produced by `sign`
with a secret deriving the given address over the given payload. -/
def validateSignature (address signature payload : Value) : Bool :=
  match signature with
  | .obj [("sigSecret", s), ("sigPayload", p)] =>
    p == payload && address == addressFromSecret s
  | _ => false

/-- Modelled from the spec: Entity Builder `setBundle(entry, bundleIdOrNull)`
(§4.1, §9) — the bundle back-reference is an optional identifier field on the
entry, returned as a fresh copy. -/
def setBundle (entry : Value) (bundleId : Value) : Value :=
  objPut entry "bundle" bundleId

/-- Modelled from the spec: Entity Builder `removeBundle(entry)` (§4.1),
the inverse of `setBundle`, clearing the back-reference field. -/
def removeBundle (entry : Value) : Value := objRemove entry "bundle"

/-- Modelled from the spec: Entity Builder
`prepareEventForBundlePublication(event)` (§4.1) — an access-restricted event
(positive `accessLevel`) keeps only hash-verifiable metadata: its gated `data`
payload is dropped; an unrestricted event is published whole. -/
def prepareEventForBundlePublication (event : Value) : Value :=
  match getField (getF (getF event "content") "idData") "accessLevel" with
  | some (.nat (_ + 1)) => objRemove event "data"
  | _ => event

/-- Modelled from the spec: Bundle Assembler
`assembleBundle(assets, events, timestamp, creatorSecret)` (§4.2 steps 1–9);
only its test suite is present in the repository. -/
def assembleBundle (assets events : List Value) (timestamp secret : Value) : Value :=
  let strippedAssets := assets.map removeBundle
  let eventStubs := (events.map removeBundle).map prepareEventForBundlePublication
  let entries := Value.arr (strippedAssets ++ eventStubs)
  let entriesHash := calculateHash entries
  let createdBy := addressFromSecret secret
  let idData := Value.obj
    [("createdBy", createdBy), ("timestamp", timestamp), ("entriesHash", entriesHash)]
  let signature := sign secret idData
  let content := Value.obj
    [("idData", idData), ("signature", signature), ("entries", entries)]
  Value.obj [("bundleId", calculateHash content), ("content", content)]

/-- C1: For every list of assets, list of events, timestamp and creator
secret, `assembleBundle` returns `{bundleId, content}` where `content.entries`
is the bundle-reference-stripped assets together with the publication stubs of
the stripped events (of length `|assets| + |events|`), `content.idData` is
`{createdBy: addressFromSecret(secret), timestamp, entriesHash:
hash(entries)}`, `content.signature = sign(secret, idData)` and `bundleId =
hash(content)`. -/
theorem assembleBundle_spec (assets events : List Value) (timestamp secret : Value) :
    getF (getF (assembleBundle assets events timestamp secret) "content") "entries" =
      Value.arr (assets.map removeBundle ++
        (events.map removeBundle).map prepareEventForBundlePublication) ∧
    (assets.map removeBundle ++
        (events.map removeBundle).map prepareEventForBundlePublication).length =
      assets.length + events.length ∧
    getF (getF (assembleBundle assets events timestamp secret) "content") "idData" =
      Value.obj
        [("createdBy", addressFromSecret secret), ("timestamp", timestamp),
         ("entriesHash", calculateHash (getF (getF
           (assembleBundle assets events timestamp secret) "content") "entries"))] ∧
    getF (getF (assembleBundle assets events timestamp secret) "content") "signature" =
      sign secret
        (getF (getF (assembleBundle assets events timestamp secret) "content") "idData") ∧
    getF (assembleBundle assets events timestamp secret) "bundleId" =
      calculateHash (getF (assembleBundle assets events timestamp secret) "content") ∧
    assembleBundle assets events timestamp secret =
      Value.obj
        [("bundleId", getF (assembleBundle assets events timestamp secret) "bundleId"),
         ("content", getF (assembleBundle assets events timestamp secret) "content")] := by
  refine ⟨rfl, by simp, rfl, rfl, rfl, rfl⟩

/-- All keys of an object lie in the allowed set (the closed-field-set check). -/
def fieldsWithin : Value → List String → Bool
  | .obj fields, allowed => fields.all (fun kv => allowed.contains kv.1)
  | _, _ => false

/-- Modelled from the spec: Bundle Builder `validateBundle(bundle)` (§4.2);
only its test suite is present in the repository. Checks run cheap-first:
required fields, closed field sets, the two hash matches, the signature;
every failure raises `ValidationError`. The test suite shows `entries` is a
legal `content` field, so the closed set for `content` is
`{idData, signature, entries}`. -/
def validateBundle (b : Value) : Except Err Unit :=
  match getField b "bundleId" with
  | none => .error .validation
  | some bundleId =>
  match getField b "content" with
  | none => .error .validation
  | some content =>
  match getField content "signature" with
  | none => .error .validation
  | some signature =>
  match getField content "idData" with
  | none => .error .validation
  | some idData =>
  match getField idData "createdBy" with
  | none => .error .validation
  | some createdBy =>
  match getField idData "timestamp" with
  | none => .error .validation
  | some _timestamp =>
  match getField idData "entriesHash" with
  | none => .error .validation
  | some entriesHash =>
  match getField content "entries" with
  | none => .error .validation
  | some entries =>
  if fieldsWithin b ["bundleId", "content", "metadata"] then
    if fieldsWithin content ["idData", "signature", "entries"] then
      if checkHashMatches bundleId content then
        if checkHashMatches entriesHash entries then
          if validateSignature createdBy signature idData then .ok ()
          else .error .validation
        else .error .validation
      else .error .validation
    else .error .validation
  else .error .validation

/-- The specification's condition list for a bundle to pass validation
(§4.2, claim C2), written as one conjunction: all required fields present,
field sets closed (with `metadata` optional at top level), `bundleId` and
`entriesHash` hash-matching, and the signature over `idData` valid for
`createdBy`. -/
def bundleWellFormed (b : Value) : Bool :=
  (getField b "bundleId").isSome &&
  (getField b "content").isSome &&
  (getField (getF b "content") "signature").isSome &&
  (getField (getF b "content") "idData").isSome &&
  (getField (getF (getF b "content") "idData") "createdBy").isSome &&
  (getField (getF (getF b "content") "idData") "timestamp").isSome &&
  (getField (getF (getF b "content") "idData") "entriesHash").isSome &&
  (getField (getF b "content") "entries").isSome &&
  fieldsWithin b ["bundleId", "content", "metadata"] &&
  fieldsWithin (getF b "content") ["idData", "signature", "entries"] &&
  checkHashMatches (getF b "bundleId") (getF b "content") &&
  checkHashMatches (getF (getF (getF b "content") "idData") "entriesHash")
    (getF (getF b "content") "entries") &&
  validateSignature (getF (getF (getF b "content") "idData") "createdBy")
    (getF (getF b "content") "signature") (getF (getF b "content") "idData")

theorem validateBundle_eq (b : Value) :
    validateBundle b =
      if bundleWellFormed b then Except.ok () else Except.error Err.validation := by
  unfold validateBundle
  cases h1 : getField b "bundleId" with
  | none => simp [bundleWellFormed, h1]
  | some bundleId =>
  cases h2 : getField b "content" with
  | none => simp [bundleWellFormed, h1, h2]
  | some content =>
  cases h3 : getField content "signature" with
  | none => simp [bundleWellFormed, getF, h1, h2, h3]
  | some signature =>
  cases h4 : getField content "idData" with
  | none => simp [bundleWellFormed, getF, h1, h2, h3, h4]
  | some idData =>
  cases h5 : getField idData "createdBy" with
  | none => simp [bundleWellFormed, getF, h1, h2, h3, h4, h5]
  | some createdBy =>
  cases h6 : getField idData "timestamp" with
  | none => simp [bundleWellFormed, getF, h1, h2, h3, h4, h5, h6]
  | some ts =>
  cases h7 : getField idData "entriesHash" with
  | none => simp [bundleWellFormed, getF, h1, h2, h3, h4, h5, h6, h7]
  | some entriesHash =>
  cases h8 : getField content "entries" with
  | none => simp [bundleWellFormed, getF, h1, h2, h3, h4, h5, h6, h7, h8]
  | some entries =>
  simp only [bundleWellFormed, getF, h1, h2, h3, h4, h5, h6, h7, h8,
    Option.isSome_some, Option.getD_some, Bool.true_and]
  by_cases c1 : fieldsWithin b ["bundleId", "content", "metadata"] <;>
    by_cases c2 : fieldsWithin content ["idData", "signature", "entries"] <;>
      by_cases c3 : checkHashMatches bundleId content <;>
        by_cases c4 : checkHashMatches entriesHash entries <;>
          by_cases c5 : validateSignature createdBy signature idData <;>
            simp [c1, c2, c3, c4, c5]

instance {e a : Type} [DecidableEq e] [DecidableEq a] : DecidableEq (Except e a)
  | .ok x, .ok y =>
    match decEq x y with
    | isTrue h => isTrue (by rw [h])
    | isFalse h => isFalse (by intro hc; cases hc; exact h rfl)
  | .error x, .error y =>
    match decEq x y with
    | isTrue h => isTrue (by rw [h])
    | isFalse h => isFalse (by intro hc; cases hc; exact h rfl)
  | .ok _, .error _ => isFalse (by intro h; cases h)
  | .error _, .ok _ => isFalse (by intro h; cases h)

/-- C2: `validateBundle` succeeds exactly on bundles satisfying the
specification's condition list — all required fields present
(`bundleId`, `content`, `content.signature`, `content.idData.createdBy`,
`content.idData.timestamp`, `content.idData.entriesHash`, `content.entries`),
the field sets closed (`content` within `{idData, signature, entries}`, the
top level within `{bundleId, content, metadata}` so `metadata` is optional),
`bundleId` hash-matching `content`, `entriesHash` hash-matching `entries`,
and the signature over `idData` valid for `createdBy` — and every failure is
a `ValidationError`. -/
theorem validateBundle_characterisation (b : Value) :
    (validateBundle b = Except.ok () ↔ bundleWellFormed b = true) ∧
    (bundleWellFormed b = false → validateBundle b = Except.error Err.validation) := by
  rw [validateBundle_eq]
  cases h : bundleWellFormed b <;> simp [h]

/-- C2 witness: a concrete malformed bundle (the bare `null` value) is
rejected with a `ValidationError`. -/
theorem validateBundle_characterisation_witness :
    bundleWellFormed Value.null = false ∧
    validateBundle Value.null = Except.error Err.validation :=
  ⟨by decide, (validateBundle_characterisation Value.null).2 (by decide)⟩

/-- C3: round trip — for every list of assets, list of events, timestamp and
secret, the assembled bundle passes `validateBundle`; and replacing the
bundle's `content.entries`, `content.idData` or `content.signature` by any
different value before validation makes `validateBundle` fail with a
`ValidationError` (a single-byte mutation is a special case of such a
replacement). -/
theorem bundle_roundtrip_mutation (assets events : List Value) (ts secret : Value) :
    validateBundle (assembleBundle assets events ts secret) = Except.ok () ∧
    (∀ v, v ≠ getF (getF (assembleBundle assets events ts secret) "content") "entries" →
      validateBundle (objPut (assembleBundle assets events ts secret) "content"
        (objPut (getF (assembleBundle assets events ts secret) "content") "entries" v)) =
        Except.error Err.validation) ∧
    (∀ v, v ≠ getF (getF (assembleBundle assets events ts secret) "content") "idData" →
      validateBundle (objPut (assembleBundle assets events ts secret) "content"
        (objPut (getF (assembleBundle assets events ts secret) "content") "idData" v)) =
        Except.error Err.validation) ∧
    (∀ v, v ≠ getF (getF (assembleBundle assets events ts secret) "content") "signature" →
      validateBundle (objPut (assembleBundle assets events ts secret) "content"
        (objPut (getF (assembleBundle assets events ts secret) "content") "signature" v)) =
        Except.error Err.validation) := by
  refine ⟨?_, ?_, ?_, ?_⟩
  · rw [validateBundle_eq]
    have h : bundleWellFormed (assembleBundle assets events ts secret) = true := by
      simp [assembleBundle, bundleWellFormed, getF, getField, lookupField, fieldsWithin,
        checkHashMatches, validateSignature, calculateHash, addressFromSecret, sign]
    simp [h]
  · intro v hne
    rw [validateBundle_eq]
    have h : bundleWellFormed (objPut (assembleBundle assets events ts secret) "content"
        (objPut (getF (assembleBundle assets events ts secret) "content") "entries" v)) = false := by
      rw [Bool.eq_false_iff]
      intro htrue
      simp [assembleBundle, objPut, putField, getF, getField, lookupField, bundleWellFormed,
        checkHashMatches, calculateHash, fieldsWithin, validateSignature, addressFromSecret, sign,
        Bool.and_eq_true, beq_iff_eq] at htrue hne
      simp_all
    simp [h]
  · intro v hne
    rw [validateBundle_eq]
    have h : bundleWellFormed (objPut (assembleBundle assets events ts secret) "content"
        (objPut (getF (assembleBundle assets events ts secret) "content") "idData" v)) = false := by
      rw [Bool.eq_false_iff]
      intro htrue
      simp [assembleBundle, objPut, putField, getF, getField, lookupField, bundleWellFormed,
        checkHashMatches, calculateHash, fieldsWithin, validateSignature, addressFromSecret, sign,
        Bool.and_eq_true, beq_iff_eq] at htrue hne
      simp_all
    simp [h]
  · intro v hne
    rw [validateBundle_eq]
    have h : bundleWellFormed (objPut (assembleBundle assets events ts secret) "content"
        (objPut (getF (assembleBundle assets events ts secret) "content") "signature" v)) = false := by
      rw [Bool.eq_false_iff]
      intro htrue
      simp [assembleBundle, objPut, putField, getF, getField, lookupField, bundleWellFormed,
        checkHashMatches, calculateHash, fieldsWithin, validateSignature, addressFromSecret, sign,
        Bool.and_eq_true, beq_iff_eq] at htrue hne
      simp_all
    simp [h]

/-- C3 witness: for a concrete bundle assembled from one asset and no events,
validation succeeds, and replacing its `entries` by `null` is rejected. -/
theorem bundle_roundtrip_mutation_witness :
    validateBundle (assembleBundle [Value.obj []] [] (Value.nat 7) (Value.str "sec")) =
      Except.ok () ∧
    Value.null ≠
      getF (getF (assembleBundle [Value.obj []] [] (Value.nat 7) (Value.str "sec")) "content")
        "entries" ∧
    validateBundle (objPut (assembleBundle [Value.obj []] [] (Value.nat 7) (Value.str "sec"))
        "content"
        (objPut (getF (assembleBundle [Value.obj []] [] (Value.nat 7) (Value.str "sec"))
          "content") "entries" Value.null)) =
      Except.error Err.validation :=
  ⟨(bundle_roundtrip_mutation [Value.obj []] [] (Value.nat 7) (Value.str "sec")).1,
   by decide,
   (bundle_roundtrip_mutation [Value.obj []] [] (Value.nat 7) (Value.str "sec")).2.1
     Value.null (by decide)⟩

/-- Repository and ledger operations with side effects, recorded in the
engine state's operation log so that the order of effects is observable. -/
inductive RepoOp where
  | storeAccount (account : Value)
  | updateAccount (address request : Value)
  | storeEvent (event : Value)
  | beginBundle (stubId : Value)
  | storeBundle (bundle : Value)
  | endBundle (stubId bundleId : Value)
  | uploadProof (bundleId : Value)
  | storeBundleProofBlock (bundleId : Value) (blockNumber : Nat)
deriving DecidableEq, Repr

/-- Modelled from the spec: the repositories of §6 (account repository,
entity repository, proof repository) as one explicit state, the sole source
of truth; `trace` logs every mutating or ledger-facing operation. -/
structure EngineState where
  accounts : List Value
  assets : List Value
  events : List Value
  bundles : List Value
  proofBlocks : List (Value × Nat)
  trace : List RepoOp
deriving DecidableEq, Repr

/-- Modelled from the spec: Account Repository `count()` (§6). -/
def accountCount (st : EngineState) : Nat := st.accounts.length

/-- Modelled from the spec: Account Repository `get(address) → Account|null`
(§6). -/
def accountGet (st : EngineState) (address : Value) : Option Value :=
  st.accounts.find? (fun a => getF a "address" == address)

/-- Modelled from the spec: Account Repository `store(account)` (§6). -/
def accountStore (st : EngineState) (account : Value) : EngineState :=
  { st with accounts := st.accounts ++ [account],
            trace := st.trace ++ [.storeAccount account] }

/-- Merge of a partial update into a record, modelling a document-store
partial update (§6 `update(address, partial)`). -/
def objMerge (base request : Value) : Value :=
  match request with
  | .obj fields => fields.foldl (fun acc kv => objPut acc kv.1 kv.2) base
  | _ => base

/-- Modelled from the spec: Account Repository `update(address, partial)`
(§6), applying the partial update to the matching account. -/
def accountUpdate (st : EngineState) (address request : Value) : EngineState :=
  { st with
    accounts := st.accounts.map
      (fun a => if getF a "address" == address then objMerge a request else a),
    trace := st.trace ++ [.updateAccount address request] }

/-- Modelled from the spec: Entity Repository `getAsset(id) → Asset|null`
(§6). -/
def assetGet (st : EngineState) (assetId : Value) : Option Value :=
  st.assets.find? (fun a => getF a "assetId" == assetId)

/-- Modelled from the spec: Entity Repository `storeEvent` (§6). -/
def eventStore (st : EngineState) (event : Value) : EngineState :=
  { st with events := st.events ++ [event],
            trace := st.trace ++ [.storeEvent event] }

/-- The entries of the entity repository whose bundle back-reference is
unset (stamped `null` at creation): the not-yet-bundled assets. -/
def unbundledAssets (st : EngineState) : List Value :=
  st.assets.filter (fun a => getF a "bundle" == Value.null)

/-- The not-yet-bundled events. -/
def unbundledEvents (st : EngineState) : List Value :=
  st.events.filter (fun e => getF e "bundle" == Value.null)

/-- Modelled from the spec: Entity Repository `beginBundle(stubId) →
{assets, events}` (§6), the atomic claim: returns the unbundled entries and
marks them with the claim's stub identifier in the same step. -/
def beginBundleOp (st : EngineState) (stubId : Value) :
    (List Value × List Value) × EngineState :=
  ((unbundledAssets st, unbundledEvents st),
   { st with
     assets := st.assets.map
       (fun a => if getF a "bundle" == Value.null then setBundle a stubId else a),
     events := st.events.map
       (fun e => if getF e "bundle" == Value.null then setBundle e stubId else e),
     trace := st.trace ++ [.beginBundle stubId] })

/-- Modelled from the spec: Entity Repository `storeBundle(bundle)` (§6). -/
def bundleStore (st : EngineState) (bundle : Value) : EngineState :=
  { st with bundles := st.bundles ++ [bundle],
            trace := st.trace ++ [.storeBundle bundle] }

/-- Modelled from the spec: Entity Repository `endBundle(stubId, bundleId)`
(§6), resolving the claim by linking the claimed entries to the bundle. -/
def endBundleOp (st : EngineState) (stubId bundleId : Value) : EngineState :=
  { st with
    assets := st.assets.map
      (fun a => if getF a "bundle" == stubId then setBundle a bundleId else a),
    events := st.events.map
      (fun e => if getF e "bundle" == stubId then setBundle e bundleId else e),
    trace := st.trace ++ [.endBundle stubId bundleId] }

/-- Modelled from the spec: Proof Repository `uploadProof(bundleId)` (§6),
the ledger-anchoring submission; the resulting block number is an external
input of the engine functions. -/
def uploadProofOp (st : EngineState) (bundleId : Value) : EngineState :=
  { st with trace := st.trace ++ [.uploadProof bundleId] }

/-- Modelled from the spec: Entity Repository
`storeBundleProofBlock(bundleId, blockNumber)` (§6). -/
def bundleProofStore (st : EngineState) (bundleId : Value) (blockNumber : Nat) :
    EngineState :=
  { st with proofBlocks := st.proofBlocks ++ [(bundleId, blockNumber)],
            trace := st.trace ++ [.storeBundleProofBlock bundleId blockNumber] }

/-- Modelled from the spec: `hasPermission(account, permission)` (§4.3), a
pure membership test against the account's permission set. -/
def hasPermission (account : Value) (permission : String) : Bool :=
  match getField account "permissions" with
  | some (.arr ps) => ps.contains (.str permission)
  | _ => false

/-- Modelled from the spec: `ensureHasPermission(address, permission)`
(§4.3); only its test suite is present in the repository. Fetches the account
and fails with `PermissionError` both when it does not exist and when it
lacks the permission. -/
def ensureHasPermission (st : EngineState) (address : Value) (permission : String) :
    Except Err Unit :=
  match accountGet st address with
  | none => .error .permission
  | some account =>
    if hasPermission account permission then .ok () else .error .permission

/-- Modelled from the spec: `getTokenCreatorAccessLevel(token)` (§4.3); only
its test suite is present in the repository. `none` models a missing
(`null`/`undefined`) token. -/
def getTokenCreatorAccessLevel (st : EngineState) (tokenData : Option Value) : Value :=
  match tokenData with
  | none => .nat 0
  | some token =>
    match accountGet st (getF token "createdBy") with
    | none => .nat 0
    | some account => getF account "accessLevel"

/-- Modelled from the spec: `defaultAdminPermissions()` (§4.3), the fixed
genesis permission set, in the order the test suite records. -/
def defaultAdminPermissions : List Value :=
  [.str "change_account_permissions", .str "register_account", .str "create_entity"]

/-- Modelled from the spec: `validateAddAccountRequest(request)` (§4.3): the
request must have exactly the fields `{address, permissions, accessLevel}`
with `accessLevel` a non-negative integer. -/
def validateAddAccountRequest (request : Value) : Except Err Unit :=
  match getField request "address", getField request "permissions",
        getField request "accessLevel" with
  | some _, some _, some (.nat _) =>
    if fieldsWithin request ["address", "permissions", "accessLevel"] then .ok ()
    else .error .validation
  | _, _, _ => .error .validation

/-- A JSON array whose members are all strings. -/
def isStringArray : Value → Bool
  | .arr xs => xs.all (fun v => match v with | .str _ => true | _ => false)
  | _ => false

/-- Modelled from the spec: `validateModifyAccountRequest(request)` (§4.3):
only `permissions` (a sequence of strings) and `accessLevel` (a non-negative
integer) may appear, each optional. -/
def validateModifyAccountRequest (request : Value) : Except Err Unit :=
  if fieldsWithin request ["permissions", "accessLevel"] &&
     (match getField request "permissions" with
      | some p => isStringArray p
      | none => true) &&
     (match getField request "accessLevel" with
      | some (.nat _) => true
      | some _ => false
      | none => true) then .ok ()
  else .error .validation

/-- Modelled from the spec: Entity Builder `validateEvent(event)` (§4.1, §3):
required fields present, field sets closed, `timestamp` and `accessLevel`
non-negative integers; purely structural, no repository access. -/
def validateEvent (event : Value) : Except Err Unit :=
  match getField event "eventId" with
  | none => .error .validation
  | some _ =>
  match getField event "content" with
  | none => .error .validation
  | some content =>
  match getField content "idData" with
  | none => .error .validation
  | some idData =>
  match getField content "signature" with
  | none => .error .validation
  | some _ =>
  match getField idData "createdBy" with
  | none => .error .validation
  | some _ =>
  match getField idData "assetId" with
  | none => .error .validation
  | some _ =>
  if fieldsWithin event ["eventId", "content", "data"] &&
     fieldsWithin content ["idData", "signature"] &&
     fieldsWithin idData ["createdBy", "timestamp", "assetId", "accessLevel", "dataHash"] then
    match getField idData "timestamp", getField idData "accessLevel" with
    | some (.nat _), some (.nat _) => .ok ()
    | _, _ => .error .validation
  else .error .validation

/-- Embedding of `DataModelEngine.createAdminAccount` from
`src/src/services/data_model_engine.js` (lines 14–25): fails when any account
already exists; otherwise stores the account extended with the default admin
permissions and returns the original account argument (the default argument
`identityManager.createKeyPair()` is passed explicitly). The generic
`Error('Admin account already exist.')` is `Err.other`. -/
def createAdminAccount (st : EngineState) (account : Value) :
    Except Err Value × EngineState :=
  if accountCount st > 0 then
    (.error .other, st)
  else
    let accountWithPermissions :=
      objPut account "permissions" (Value.arr defaultAdminPermissions)
    (.ok account, accountStore st accountWithPermissions)

/-- Embedding of `DataModelEngine.addAccount` from `src/src/services/data_model_engine.js`
(lines 27–39): permission check, then request validation, then store of the
record built from the request plus `registeredBy`. -/
def addAccount (st : EngineState) (accountRequest tokenData : Value) :
    Except Err Value × EngineState :=
  match ensureHasPermission st (getF tokenData "createdBy") "register_account" with
  | .error e => (.error e, st)
  | .ok () =>
  match validateAddAccountRequest accountRequest with
  | .error e => (.error e, st)
  | .ok () =>
    let accountToStore := Value.obj
      [("address", getF accountRequest "address"),
       ("permissions", getF accountRequest "permissions"),
       ("registeredBy", getF tokenData "createdBy"),
       ("accessLevel", getF accountRequest "accessLevel")]
    (.ok accountToStore, accountStore st accountToStore)

/-- Embedding of `DataModelEngine.getAccount` from `src/src/services/data_model_engine.js`
(lines 41–51): `PermissionError` when the sender account is unknown,
`NotFoundError` when the target is; read-only. -/
def getAccount (st : EngineState) (address tokenData : Value) : Except Err Value :=
  match accountGet st (getF tokenData "createdBy") with
  | none => .error .permission
  | some _sender =>
  match accountGet st address with
  | none => .error .notFound
  | some result => .ok result

/-- Embedding of `DataModelEngine.modifyAccount` from
`src/src/services/data_model_engine.js` (lines 53–58): permission check,
request validation, target existence check (via `getAccount`), then the
repository update. -/
def modifyAccount (st : EngineState) (accountToChange accountRequest tokenData : Value) :
    Except Err Value × EngineState :=
  match ensureHasPermission st (getF tokenData "createdBy") "register_account" with
  | .error e => (.error e, st)
  | .ok () =>
  match validateModifyAccountRequest accountRequest with
  | .error e => (.error e, st)
  | .ok () =>
  match getAccount st accountToChange tokenData with
  | .error e => (.error e, st)
  | .ok target =>
    (.ok (objMerge target accountRequest), accountUpdate st accountToChange accountRequest)

/-- Embedding of `DataModelEngine.createEvent` from `src/src/services/data_model_engine.js`
(lines 80–94): structural validation, `create_entity` authorization for the
creator, existence check of the referenced asset (`InvalidParametersError`
otherwise), bundle stamp set to `null`, persistence. -/
def createEvent (st : EngineState) (event : Value) : Except Err Value × EngineState :=
  match validateEvent event with
  | .error e => (.error e, st)
  | .ok () =>
  match ensureHasPermission st (getF (getF (getF event "content") "idData") "createdBy")
      "create_entity" with
  | .error e => (.error e, st)
  | .ok () =>
  match assetGet st (getF (getF (getF event "content") "idData") "assetId") with
  | none => (.error .invalidParameters, st)
  | some _ =>
    let augmentedEvent := setBundle event Value.null
    (.ok augmentedEvent, eventStore st augmentedEvent)

/-- Embedding of `DataModelEngine.finaliseBundle` from
`src/src/services/data_model_engine.js` (lines 119–134): claim, assemble,
persist, resolve claim, anchor, record anchor block, return bundle. The
external inputs `Date.now()`, `identityManager.nodePrivateKey()` and the
ledger's block number are parameters. -/
def finaliseBundle (st : EngineState) (bundleStubId now nodeSecret : Value)
    (blockNumber : Nat) : Except Err Value × EngineState :=
  let claimed := beginBundleOp st bundleStubId
  let newBundle := assembleBundle claimed.1.1 claimed.1.2 now nodeSecret
  let st2 := bundleStore claimed.2 newBundle
  let st3 := endBundleOp st2 bundleStubId (getF newBundle "bundleId")
  let st4 := uploadProofOp st3 (getF newBundle "bundleId")
  let st5 := bundleProofStore st4 (getF newBundle "bundleId") blockNumber
  (.ok newBundle, st5)

theorem lookupField_putField (fields : List (String × Value)) (k : String) (v : Value) :
    lookupField (putField fields k v) k = some v := by
  induction fields with
  | nil => simp [putField, lookupField]
  | cons kv rest ih =>
    obtain ⟨k', v'⟩ := kv
    by_cases h : k' = k <;> simp [putField, lookupField, h, ih]

theorem getField_objPut (o : Value) (k : String) (v : Value) :
    getField (objPut o k v) k = some v := by
  cases o <;> simp [objPut, getField, lookupField, lookupField_putField]

/-- C4: `createAdminAccount()` succeeds if and only if the account repository
holds zero accounts; on success the stored account carries exactly the
default admin permissions `{change_account_permissions, register_account,
create_entity}`, and any second call fails. -/
theorem createAdminAccount_genesis (st : EngineState) (account : Value) :
    ((createAdminAccount st account).1.isOk = true ↔ st.accounts = []) ∧
    (∀ r st', createAdminAccount st account = (Except.ok r, st') →
      r = account ∧
      st'.accounts = [objPut account "permissions" (Value.arr defaultAdminPermissions)] ∧
      getField (objPut account "permissions" (Value.arr defaultAdminPermissions)) "permissions" =
        some (Value.arr [Value.str "change_account_permissions", Value.str "register_account",
          Value.str "create_entity"]) ∧
      ∀ account2, (createAdminAccount st' account2).1 = Except.error Err.other) := by
  constructor
  · unfold createAdminAccount accountCount
    by_cases h : st.accounts.length > 0
    · have hne : st.accounts ≠ [] := by
        intro hnil
        rw [hnil] at h
        simp at h
      simp [h, hne, Except.isOk, Except.toBool]
    · have hnil : st.accounts = [] := by
        rcases List.eq_nil_or_concat st.accounts with h0 | ⟨l, x, hx⟩
        · exact h0
        · exfalso; apply h; rw [hx]; simp
      simp [h, hnil, Except.isOk, Except.toBool]
  · intro r st' hok
    unfold createAdminAccount accountCount at hok
    by_cases h : st.accounts.length > 0
    · simp [h] at hok
    · have hnil : st.accounts = [] := by
        rcases List.eq_nil_or_concat st.accounts with h0 | ⟨l, x, hx⟩
        · exact h0
        · exfalso; apply h; rw [hx]; simp
      simp [h, accountStore] at hok
      obtain ⟨hr, hst⟩ := hok
      refine ⟨hr.symm, ?_, ?_, ?_⟩
      · rw [← hst]; simp [hnil]
      · rw [getField_objPut]; rfl
      · intro account2
        unfold createAdminAccount accountCount
        have hpos : st'.accounts.length > 0 := by rw [← hst]; simp [hnil]
        simp [hpos]

/-- C4 witness: on the empty repository a concrete `createAdminAccount` call
succeeds and stores the default admin permission set; the same call on the
resulting repository fails. -/
theorem createAdminAccount_genesis_witness :
    createAdminAccount (⟨[], [], [], [], [], []⟩ : EngineState)
        (Value.obj [("address", Value.str "0xadmin")]) =
      (Except.ok (Value.obj [("address", Value.str "0xadmin")]),
       ⟨[Value.obj [("address", Value.str "0xadmin"),
          ("permissions", Value.arr defaultAdminPermissions)]], [], [], [], [],
        [RepoOp.storeAccount (Value.obj [("address", Value.str "0xadmin"),
          ("permissions", Value.arr defaultAdminPermissions)])]⟩) ∧
    (createAdminAccount
        (⟨[Value.obj [("address", Value.str "0xadmin"),
           ("permissions", Value.arr defaultAdminPermissions)]], [], [], [], [],
         [RepoOp.storeAccount (Value.obj [("address", Value.str "0xadmin"),
           ("permissions", Value.arr defaultAdminPermissions)])]⟩ : EngineState)
        (Value.obj [("address", Value.str "0xbob")])).1 = Except.error Err.other := by
  refine ⟨by decide, ?_⟩
  exact ((createAdminAccount_genesis (⟨[], [], [], [], [], []⟩ : EngineState)
    (Value.obj [("address", Value.str "0xadmin")])).2
    (Value.obj [("address", Value.str "0xadmin")]) _ (by decide)).2.2.2
    (Value.obj [("address", Value.str "0xbob")])

/-- C5: for every structurally valid event whose creator holds the
`create_entity` permission, `createEvent` fails with
`InvalidParametersError` exactly when the referenced asset is absent from the
repository (leaving the state unchanged); when the asset exists it stamps the
event's bundle reference as unset (`null`), persists it, and succeeds. -/
theorem createEvent_asset_existence (st : EngineState) (event : Value)
    (hvalid : validateEvent event = Except.ok ())
    (hperm : ensureHasPermission st (getF (getF (getF event "content") "idData") "createdBy")
      "create_entity" = Except.ok ()) :
    (assetGet st (getF (getF (getF event "content") "idData") "assetId") = none →
      createEvent st event = (Except.error Err.invalidParameters, st)) ∧
    (∀ a, assetGet st (getF (getF (getF event "content") "idData") "assetId") = some a →
      createEvent st event = (Except.ok (setBundle event Value.null),
        eventStore st (setBundle event Value.null))) := by
  unfold createEvent
  rw [hvalid, hperm]
  constructor
  · intro hnone; rw [hnone]
  · intro a ha; rw [ha]

/-- C5 witness: with asset `"0xA1"` stored and an authorized creator, a
concrete valid event referencing `"0xA1"` is stamped and persisted. -/
theorem createEvent_asset_existence_witness :
    createEvent
      (⟨[Value.obj [("address", Value.str "0xadmin"),
          ("permissions", Value.arr [Value.str "create_entity"])]],
        [Value.obj [("assetId", Value.str "0xA1")]], [], [], [], []⟩ : EngineState)
      (Value.obj [("eventId", Value.str "0xev"),
        ("content", Value.obj [
          ("idData", Value.obj [("createdBy", Value.str "0xadmin"),
            ("timestamp", Value.nat 1), ("assetId", Value.str "0xA1"),
            ("accessLevel", Value.nat 0)]),
          ("signature", Value.str "0xsig")])]) =
      (Except.ok (setBundle (Value.obj [("eventId", Value.str "0xev"),
        ("content", Value.obj [
          ("idData", Value.obj [("createdBy", Value.str "0xadmin"),
            ("timestamp", Value.nat 1), ("assetId", Value.str "0xA1"),
            ("accessLevel", Value.nat 0)]),
          ("signature", Value.str "0xsig")])]) Value.null),
       eventStore
        (⟨[Value.obj [("address", Value.str "0xadmin"),
            ("permissions", Value.arr [Value.str "create_entity"])]],
          [Value.obj [("assetId", Value.str "0xA1")]], [], [], [], []⟩ : EngineState)
        (setBundle (Value.obj [("eventId", Value.str "0xev"),
          ("content", Value.obj [
            ("idData", Value.obj [("createdBy", Value.str "0xadmin"),
              ("timestamp", Value.nat 1), ("assetId", Value.str "0xA1"),
              ("accessLevel", Value.nat 0)]),
            ("signature", Value.str "0xsig")])]) Value.null)) :=
  (createEvent_asset_existence _ _ (by decide) (by decide)).2
    (Value.obj [("assetId", Value.str "0xA1")]) (by decide)

/-- C6: `getTokenCreatorAccessLevel` returns `0` when no token is provided
(`null`/`undefined`) and when the token's creator is not a registered
account; otherwise it returns exactly the stored `accessLevel` field of that
account. -/
theorem getTokenCreatorAccessLevel_spec (st : EngineState) (tokenData : Option Value) :
    (tokenData = none → getTokenCreatorAccessLevel st tokenData = Value.nat 0) ∧
    (∀ t, tokenData = some t → accountGet st (getF t "createdBy") = none →
      getTokenCreatorAccessLevel st tokenData = Value.nat 0) ∧
    (∀ t account, tokenData = some t → accountGet st (getF t "createdBy") = some account →
      getTokenCreatorAccessLevel st tokenData = getF account "accessLevel") := by
  refine ⟨?_, ?_, ?_⟩
  · intro h; rw [h]; rfl
  · intro t ht hn; rw [ht]; simp [getTokenCreatorAccessLevel, hn]
  · intro t account ht ha; rw [ht]; simp [getTokenCreatorAccessLevel, ha]

/-- C6 witness: a missing token yields level `0`; a token of a registered
account with stored `accessLevel` `4` yields that stored value. -/
theorem getTokenCreatorAccessLevel_spec_witness :
    getTokenCreatorAccessLevel
      (⟨[Value.obj [("address", Value.str "0xadmin"), ("accessLevel", Value.nat 4)]],
        [], [], [], [], []⟩ : EngineState) none = Value.nat 0 ∧
    getTokenCreatorAccessLevel
      (⟨[Value.obj [("address", Value.str "0xadmin"), ("accessLevel", Value.nat 4)]],
        [], [], [], [], []⟩ : EngineState)
      (some (Value.obj [("createdBy", Value.str "0xadmin")])) =
      getF (Value.obj [("address", Value.str "0xadmin"), ("accessLevel", Value.nat 4)])
        "accessLevel" :=
  ⟨(getTokenCreatorAccessLevel_spec _ none).1 rfl,
   (getTokenCreatorAccessLevel_spec _ _).2.2
     (Value.obj [("createdBy", Value.str "0xadmin")])
     (Value.obj [("address", Value.str "0xadmin"), ("accessLevel", Value.nat 4)])
     rfl (by decide)⟩

/-- C7: `ensureHasPermission` succeeds exactly when the account exists and
holds the permission; it fails with the same `PermissionError` kind both when
the account is unknown and when it lacks the permission, so the two failure
causes are indistinguishable from the error kind. -/
theorem ensureHasPermission_spec (st : EngineState) (address : Value) (permission : String) :
    (ensureHasPermission st address permission = Except.ok () ↔
      ∃ account, accountGet st address = some account ∧ hasPermission account permission = true) ∧
    (accountGet st address = none →
      ensureHasPermission st address permission = Except.error Err.permission) ∧
    (∀ account, accountGet st address = some account → hasPermission account permission = false →
      ensureHasPermission st address permission = Except.error Err.permission) := by
  refine ⟨?_, ?_, ?_⟩
  · unfold ensureHasPermission
    cases h : accountGet st address with
    | none => simp [h]
    | some account =>
      by_cases hp : hasPermission account permission <;> simp [h, hp]
  · intro h; unfold ensureHasPermission; rw [h]
  · intro account h hp; unfold ensureHasPermission; rw [h]; simp [hp]

/-- C7 witness: an unknown address and a known account lacking the
permission both produce the identical `PermissionError`. -/
theorem ensureHasPermission_spec_witness :
    ensureHasPermission
      (⟨[Value.obj [("address", Value.str "0xadmin"),
          ("permissions", Value.arr [Value.str "create_entity"])]],
        [], [], [], [], []⟩ : EngineState)
      (Value.str "0xghost") "create_entity" = Except.error Err.permission ∧
    ensureHasPermission
      (⟨[Value.obj [("address", Value.str "0xadmin"),
          ("permissions", Value.arr [Value.str "create_entity"])]],
        [], [], [], [], []⟩ : EngineState)
      (Value.str "0xadmin") "register_account" = Except.error Err.permission :=
  ⟨(ensureHasPermission_spec _ (Value.str "0xghost") "create_entity").2.1 (by decide),
   (ensureHasPermission_spec _ (Value.str "0xadmin") "register_account").2.2
     (Value.obj [("address", Value.str "0xadmin"),
       ("permissions", Value.arr [Value.str "create_entity"])]) (by decide) (by decide)⟩

/-- C8: `finaliseBundle(bundleStubId)` claims the unbundled assets and events,
assembles the bundle from exactly the claimed entries with the node's signing
key and the current time, and performs its repository effects in the fixed
order claim → persist bundle → resolve claim → submit for anchoring → record
anchor block, as recorded in the operation log; it returns the assembled
bundle, which is persisted (and its anchor block recorded) in the final
state. In particular the bundle is persisted and the claim resolved before
anchoring is attempted. -/
theorem finaliseBundle_pipeline (st : EngineState) (stubId now nodeSecret : Value)
    (blockNumber : Nat) :
    (finaliseBundle st stubId now nodeSecret blockNumber).1 =
      Except.ok (assembleBundle (unbundledAssets st) (unbundledEvents st) now nodeSecret) ∧
    (finaliseBundle st stubId now nodeSecret blockNumber).2.trace =
      st.trace ++
        [RepoOp.beginBundle stubId,
         RepoOp.storeBundle (assembleBundle (unbundledAssets st) (unbundledEvents st) now nodeSecret),
         RepoOp.endBundle stubId
           (getF (assembleBundle (unbundledAssets st) (unbundledEvents st) now nodeSecret) "bundleId"),
         RepoOp.uploadProof
           (getF (assembleBundle (unbundledAssets st) (unbundledEvents st) now nodeSecret) "bundleId"),
         RepoOp.storeBundleProofBlock
           (getF (assembleBundle (unbundledAssets st) (unbundledEvents st) now nodeSecret) "bundleId")
           blockNumber] ∧
    assembleBundle (unbundledAssets st) (unbundledEvents st) now nodeSecret ∈
      (finaliseBundle st stubId now nodeSecret blockNumber).2.bundles ∧
    (getF (assembleBundle (unbundledAssets st) (unbundledEvents st) now nodeSecret) "bundleId",
      blockNumber) ∈ (finaliseBundle st stubId now nodeSecret blockNumber).2.proofBlocks := by
  refine ⟨rfl, ?_, ?_, ?_⟩ <;>
    simp [finaliseBundle, beginBundleOp, bundleStore, endBundleOp, uploadProofOp, bundleProofStore]

/-- C9 (implicit): `addAccount` checks the caller's `register_account`
permission before validating the request body: any caller who is unknown or
lacks the permission gets a `PermissionError` (never a `ValidationError`)
for an arbitrary — in particular malformed — request, with the state
unchanged, so nothing is stored; on success the stored account is exactly
`{address, permissions, accessLevel}` from the request plus
`registeredBy = token.createdBy`, and that record is also the return value. -/
theorem addAccount_permission_first (st : EngineState) (accountRequest tokenData : Value) :
    (accountGet st (getF tokenData "createdBy") = none →
      addAccount st accountRequest tokenData = (Except.error Err.permission, st)) ∧
    (∀ account, accountGet st (getF tokenData "createdBy") = some account →
      hasPermission account "register_account" = false →
      addAccount st accountRequest tokenData = (Except.error Err.permission, st)) ∧
    (∀ r st', addAccount st accountRequest tokenData = (Except.ok r, st') →
      r = Value.obj
        [("address", getF accountRequest "address"),
         ("permissions", getF accountRequest "permissions"),
         ("registeredBy", getF tokenData "createdBy"),
         ("accessLevel", getF accountRequest "accessLevel")] ∧
      st' = accountStore st r) := by
  refine ⟨?_, ?_, ?_⟩
  · intro h
    unfold addAccount ensureHasPermission
    rw [h]
  · intro account h hp
    unfold addAccount ensureHasPermission
    rw [h]
    simp [hp]
  · intro r st' hok
    unfold addAccount at hok
    cases h1 : ensureHasPermission st (getF tokenData "createdBy") "register_account" with
    | error e => rw [h1] at hok; simp at hok
    | ok u =>
      cases u
      rw [h1] at hok
      cases h2 : validateAddAccountRequest accountRequest with
      | error e => rw [h2] at hok; simp at hok
      | ok u2 =>
        cases u2
        rw [h2] at hok
        simp at hok
        obtain ⟨h3, h4⟩ := hok
        exact ⟨h3.symm, by rw [← h4, h3]⟩

/-- C9 witness: an unknown caller submitting a malformed request (`null`)
gets a `PermissionError`, not a `ValidationError`, and the state is
unchanged. -/
theorem addAccount_permission_first_witness :
    addAccount (⟨[], [], [], [], [], []⟩ : EngineState) Value.null
      (Value.obj [("createdBy", Value.str "0xnobody")]) =
      (Except.error Err.permission, (⟨[], [], [], [], [], []⟩ : EngineState)) :=
  (addAccount_permission_first (⟨[], [], [], [], [], []⟩ : EngineState) Value.null
    (Value.obj [("createdBy", Value.str "0xnobody")])).1 (by decide)

/-- C10 (implicit): `modifyAccount` reaches the repository update only after
the permission check, the request validation and the target-existence check
have all succeeded; each failure (`PermissionError`, `ValidationError`,
`NotFoundError`) is returned with the account store — the whole state —
unchanged. -/
theorem modifyAccount_checks_before_update (st : EngineState)
    (accountToChange accountRequest tokenData : Value) :
    (∀ e, (modifyAccount st accountToChange accountRequest tokenData).1 = Except.error e →
      (modifyAccount st accountToChange accountRequest tokenData).2 = st) ∧
    ((modifyAccount st accountToChange accountRequest tokenData).2 ≠ st →
      ensureHasPermission st (getF tokenData "createdBy") "register_account" = Except.ok () ∧
      validateModifyAccountRequest accountRequest = Except.ok () ∧
      ∃ target, getAccount st accountToChange tokenData = Except.ok target) ∧
    (∀ e, ensureHasPermission st (getF tokenData "createdBy") "register_account" = Except.error e →
      modifyAccount st accountToChange accountRequest tokenData = (Except.error e, st)) ∧
    (ensureHasPermission st (getF tokenData "createdBy") "register_account" = Except.ok () →
      ∀ e, validateModifyAccountRequest accountRequest = Except.error e →
      modifyAccount st accountToChange accountRequest tokenData = (Except.error e, st)) ∧
    (ensureHasPermission st (getF tokenData "createdBy") "register_account" = Except.ok () →
      validateModifyAccountRequest accountRequest = Except.ok () →
      ∀ e, getAccount st accountToChange tokenData = Except.error e →
      modifyAccount st accountToChange accountRequest tokenData = (Except.error e, st)) := by
  unfold modifyAccount
  cases h1 : ensureHasPermission st (getF tokenData "createdBy") "register_account" with
  | error e1 => simp [h1]
  | ok u =>
    cases u
    cases h2 : validateModifyAccountRequest accountRequest with
    | error e2 => simp [h1, h2]
    | ok u2 =>
      cases u2
      cases h3 : getAccount st accountToChange tokenData with
      | error e3 => simp [h1, h2, h3]
      | ok target => simp [h1, h2, h3]

/-- C10 witness: with no accounts registered the permission check fails, the
call returns a `PermissionError` and the state is unchanged — no update is
applied. -/
theorem modifyAccount_checks_before_update_witness :
    modifyAccount (⟨[], [], [], [], [], []⟩ : EngineState) (Value.str "0xtarget")
      (Value.obj [("accessLevel", Value.nat 2)])
      (Value.obj [("createdBy", Value.str "0xnobody")]) =
      (Except.error Err.permission, (⟨[], [], [], [], [], []⟩ : EngineState)) :=
  (modifyAccount_checks_before_update (⟨[], [], [], [], [], []⟩ : EngineState)
    (Value.str "0xtarget") (Value.obj [("accessLevel", Value.nat 2)])
    (Value.obj [("createdBy", Value.str "0xnobody")])).2.2.1 Err.permission (by decide)
